import Mathlib

/-!
Shallow embedding of `src/backend/server.py` (FastAPI test-case-generator
gateway) and proofs about its behaviour.

Python-side effects are made explicit:
  - an `UploadFile` carries the outcome of `await file.read()` as an
    `Except String (List Nat)` (error message or byte list);
  - raised `HTTPException`s become `Except.error` values carrying status
    code and detail;
  - the upstream streaming model call is a parameter producing the chunk
    sequence and the optional exception raised during creation/iteration;
  - the Excel upstream call is a parameter producing either a transport
    error message or a response (status code and body bytes).
-/

namespace Server

/-- The base64 alphabet used by `base64.b64encode`. -/
def base64Chars : List Char :=
  "ABCDEFGHIJKLMNOPQRSTUVWXYZabcdefghijklmnopqrstuvwxyz0123456789+/".data

/-- One base64 digit (out-of-range indices cannot occur for byte input). -/
def base64Digit (n : Nat) : Char := base64Chars.getD n 'A'

/-- Standard base64 encoding of a byte list, three bytes per group with
`=` padding, as performed by `base64.b64encode`. -/
def base64Groups : List Nat → List Char
  | [] => []
  | [a] => [base64Digit (a / 4), base64Digit (a % 4 * 16), '=', '=']
  | [a, b] => [base64Digit (a / 4), base64Digit (a % 4 * 16 + b / 16),
      base64Digit (b % 16 * 4), '=']
  | a :: b :: c :: rest =>
      base64Digit (a / 4) :: base64Digit (a % 4 * 16 + b / 16) ::
      base64Digit (b % 16 * 4 + c / 64) :: base64Digit (c % 64) :: base64Groups rest

/-- `base64.b64encode(contents).decode("utf-8")` on a byte list. -/
def b64encode (contents : List Nat) : String := String.mk (base64Groups contents)

/-- An uploaded file: its `filename` and the outcome of reading it
(`Except.error msg` models `await file.read()` raising with message `msg`). -/
structure UploadFile where
  filename : String
  readResult : Except String (List Nat)

/-- `encode_image_to_base64` (server.py:120-125): read the file and
base64-encode the contents; a read error propagates as an exception. -/
def encode_image_to_base64 (file : UploadFile) : Except String String :=
  file.readResult.map b64encode

/-- Python `str.split('.')` for the single-character separator `'.'`:
always returns a non-empty list of (possibly empty) segments. -/
def splitOnDot : List Char → List (List Char)
  | [] => [[]]
  | c :: cs =>
    if c = '.' then [] :: splitOnDot cs
    else
      match splitOnDot cs with
      | [] => [[c]]
      | g :: gs => (c :: g) :: gs

/-- Python `str.lower()` on the character list of a string. -/
def lowerChars (cs : List Char) : List Char := cs.map Char.toLower

/-- `image.filename.split('.')[-1].lower()` (server.py:143): the segment
after the last dot (the whole name when no dot occurs), lowercased. -/
def fileExt (filename : String) : String :=
  String.mk (lowerChars ((splitOnDot filename.data).getLastD []))

/-- `mime_type` computation (server.py:144-146): `image/<ext>`, normalized
to `image/jpeg` when the extension is `jpg`. -/
def mimeType (filename : String) : String :=
  let file_ext := fileExt filename
  if file_ext = "jpg" then "image/jpeg" else "image/" ++ file_ext

/-- The embedded data URL of an image descriptor (server.py:151):
`data:image/<ext>;base64,<encoded>`, using the raw extension. -/
def imageDataUrl (filename : String) (base64Image : String) : String :=
  "data:image/" ++ fileExt filename ++ ";base64," ++ base64Image

/-- One part of a message content list: a text part or an image-URL
descriptor (`{"type": "image_url", "image_url": {"url": ...}}`). -/
inductive ContentPart where
  | text (text : String)
  | image_url (url : String)
deriving DecidableEq

/-- A raised `fastapi.HTTPException`: status code and detail string. -/
structure HTTPException where
  status_code : Nat
  detail : String
deriving DecidableEq

/-- The image-encoding loop of `process_request` (server.py:138-156):
encode each image in order; the first read error aborts the loop with
`HTTPException(400, "Error processing image: <msg>")`. -/
def encodeImages : List UploadFile → Except HTTPException (List ContentPart)
  | [] => Except.ok []
  | image :: rest =>
    match encode_image_to_base64 image with
    | Except.error e => Except.error ⟨400, "Error processing image: " ++ e⟩
    | Except.ok base64_image =>
      match encodeImages rest with
      | Except.error err => Except.error err
      | Except.ok parts =>
          Except.ok (ContentPart.image_url (imageDataUrl image.filename base64_image) :: parts)

/-- The fixed Gherkin prompt template (server.py:80-91). -/
def gherkinTemplate : String :=
  "\n    You are a test automation specialist. Create Gherkin feature file test cases based on the images provided.\n    The test cases should follow the Given-When-Then format and be comprehensive.\n    \n    Requirements:\n    - Create a Feature description\n    - Generate at least 3-5 Scenarios\n    - Each Scenario should have clear Given, When, Then steps\n    - Use appropriate tags where necessary\n    - Include parameters and examples where appropriate\n    - Format the output as a valid .feature file\n    "

/-- The fixed traditional prompt template (server.py:99-113). -/
def traditionalTemplate : String :=
  "\n    You are a test automation specialist. Create traditional test cases in a tabular format based on the images provided.\n    \n    Requirements:\n    - Present test cases in a structured format with these sections for each test case:\n      - Test Case ID (e.g., TC001)\n      - Description: Brief description of what the test case verifies\n      - Preconditions: What must be true before executing the test\n      - Steps: Numbered list of actions to perform\n      - Expected Results: What should happen when steps are executed\n      - Priority: High, Medium, or Low importance\n    - Generate at least 5-7 comprehensive test cases\n    - Include test cases for different scenarios including edge cases\n    - Assign appropriate priority to each test case\n    "

/-- Python truthiness of an `Optional[str]`: `None` and `\x22\x22` are falsy. -/
def strTruthy : Option String → Bool
  | none => false
  | some s => !(s == "")

/-- The fixed leading text of the appended suffix
`\n\nAdditional information about the test requirements: {additional_info}`. -/
def additionalInfoIntro : String :=
  "\n\nAdditional information about the test requirements: "

/-- `get_gherkin_prompt` (server.py:79-96). -/
def get_gherkin_prompt (additional_info : Option String) : String :=
  let prompt := gherkinTemplate
  if strTruthy additional_info then
    prompt ++ (additionalInfoIntro ++ additional_info.getD "")
  else prompt

/-- `get_traditional_prompt` (server.py:98-118). -/
def get_traditional_prompt (additional_info : Option String) : String :=
  let prompt := traditionalTemplate
  if strTruthy additional_info then
    prompt ++ (additionalInfoIntro ++ additional_info.getD "")
  else prompt

/-- The `LanguageMode` enum (server.py:43-45). -/
inductive LanguageMode where
  | gherkin
  | traditional
deriving DecidableEq

/-- Prompt selection in `process_request` (server.py:158-162). -/
def promptContent (language_mode : LanguageMode) (additional_info : Option String) : String :=
  match language_mode with
  | LanguageMode.gherkin => get_gherkin_prompt additional_info
  | LanguageMode.traditional => get_traditional_prompt additional_info

/-- A chat message: role plus ordered content list. -/
structure Message where
  role : String
  content : List ContentPart
deriving DecidableEq

/-- Message assembly (server.py:164-179): one user message holding the text
part, extended with the image descriptors when any exist. -/
def buildMessages (prompt_content : String) (image_contents : List ContentPart) : List Message :=
  if image_contents.isEmpty then
    [⟨"user", [ContentPart.text prompt_content]⟩]
  else
    [⟨"user", ContentPart.text prompt_content :: image_contents⟩]

/-- The message list handed to `client.chat.completions.create`
(server.py:137-179): image encoding followed by message assembly. -/
def outgoingMessages (images : List UploadFile) (language_mode : LanguageMode)
    (additional_info : Option String) : Except HTTPException (List Message) :=
  match encodeImages images with
  | Except.error e => Except.error e
  | Except.ok image_contents =>
      Except.ok (buildMessages (promptContent language_mode additional_info) image_contents)

/-- Outcome of the upstream streaming call: the `delta.content` of each
received chunk (`none` when choices/delta/content is absent or `None`),
and an optional exception message raised during creation or iteration
after those chunks. -/
structure UpstreamResult where
  chunks : List (Option String)
  err : Option String

/-- The frame produced for one chunk (server.py:192-196): non-empty
content becomes one `data: <content>\n\n` frame, anything else nothing. -/
def chunkFrame (c : Option String) : Option String :=
  match c with
  | some content => if content = "" then none else some ("data: " ++ content ++ "\n\n")
  | none => none

/-- All data frames produced by the chunk loop, in arrival order. -/
def streamChunkFrames (chunks : List (Option String)) : List String :=
  chunks.filterMap chunkFrame

/-- `process_request` (server.py:127-203): encode images (a failure raises
out of the generator with no frames emitted), build the messages, call the
upstream model on them, and emit the frame sequence: the chunk frames and
the terminal frame, with an in-band error frame before the terminal one
when an exception was raised. -/
def process_request (images : List UploadFile) (language_mode : LanguageMode)
    (additional_info : Option String) (upstream : List Message → UpstreamResult) :
    Except HTTPException (List String) :=
  match outgoingMessages images language_mode additional_info with
  | Except.error e => Except.error e
  | Except.ok messages =>
    let r := upstream messages
    match r.err with
    | none => Except.ok (streamChunkFrames r.chunks ++ ["data: [DONE]\n\n"])
    | some e =>
        Except.ok (streamChunkFrames r.chunks ++
          ["data: Error: " ++ e ++ "\n\n", "data: [DONE]\n\n"])

/-- The `StreamingResponse` returned by the route handler: the generator's
arguments (not yet consumed) and the media type. -/
structure StreamingResponse where
  images : List UploadFile
  language_mode : LanguageMode
  additional_info : Option String
  media_type : String

/-- `create_test_caases` (server.py:206-228): reject an empty image list
with a 400 before constructing the streaming response (so before any
upstream interaction); otherwise return the event-stream response. -/
def create_test_caases (images : List UploadFile) (language_mode : LanguageMode)
    (additional_info : Option String) : Except HTTPException StreamingResponse :=
  if images.isEmpty then
    Except.error ⟨400, "At least one image is required"⟩
  else
    Except.ok ⟨images, language_mode, additional_info, "text/event-stream"⟩

/-- The Excel upstream's reply: HTTP status code and body bytes. -/
structure ExcelUpstreamResponse where
  status_code : Nat
  content : List Nat

/-- A Python exception live inside the `try` block of
`generate_excel_proxy`: a raised `HTTPException` or any other exception. -/
inductive PyError where
  | httpExc (status_code : Nat) (detail : String)
  | other (msg : String)

/-- The relayed Excel file response (server.py:252-256). -/
structure ExcelFileResponse where
  content : List Nat
  media_type : String
  content_disposition : String
deriving DecidableEq

/-- The `try` block of `generate_excel_proxy` (server.py:239-256): a
transport error is a plain exception; a non-200 upstream status raises
`HTTPException(status_code=response.status_code, detail="Failed to generate Excel")`;
otherwise the body bytes are relayed with the spreadsheet media type. -/
def excelTryBlock (upstreamResult : Except String ExcelUpstreamResponse) :
    Except PyError ExcelFileResponse :=
  match upstreamResult with
  | Except.error msg => Except.error (PyError.other msg)
  | Except.ok response =>
    if response.status_code ≠ 200 then
      Except.error (PyError.httpExc response.status_code "Failed to generate Excel")
    else
      Except.ok ⟨response.content,
        "application/vnd.openxmlformats-officedocument.spreadsheetml.sheet",
        "attachment; filename=test_cases.xlsx"⟩

/-- `generate_excel_proxy` (server.py:237-260): the `except Exception`
handler catches every exception raised in the `try` block — including the
`HTTPException` carrying the upstream status — and replaces it with
`HTTPException(500, "Failed to generate Excel file")`. -/
def generate_excel_proxy (upstreamResult : Except String ExcelUpstreamResponse) :
    Except HTTPException ExcelFileResponse :=
  match excelTryBlock upstreamResult with
  | Except.ok r => Except.ok r
  | Except.error _ => Except.error ⟨500, "Failed to generate Excel file"⟩

/-- The bytes of a successfully read upload (`[]` for a failed read);
under a read-success hypothesis this is exactly the read content. -/
def okBytes (f : UploadFile) : List Nat :=
  match f.readResult with
  | Except.ok bs => bs
  | Except.error _ => []

/-- The image descriptor `process_request` produces for a successfully
read upload. -/
def descriptorOf (f : UploadFile) : ContentPart :=
  ContentPart.image_url (imageDataUrl f.filename (b64encode (okBytes f)))

/-- The fixed template selected for a mode (the two constant strings of
`get_gherkin_prompt` and `get_traditional_prompt`). -/
def promptTemplate (mode : LanguageMode) : String :=
  match mode with
  | LanguageMode.gherkin => gherkinTemplate
  | LanguageMode.traditional => traditionalTemplate

/-- Executable test that `p` is a leading segment of `l`. -/
def startsWithB : List Char → List Char → Bool
  | [], _ => true
  | _ :: _, [] => false
  | p :: ps, c :: cs => p == c && startsWithB ps cs

/-- Executable substring test: does `pat` occur contiguously in `l`? -/
def hasSubB (pat : List Char) : List Char → Bool
  | [] => pat.isEmpty
  | c :: cs => startsWithB pat (c :: cs) || hasSubB pat cs

/-- Executable test that `p` is a trailing segment of `l`. -/
def endsWithB (p l : List Char) : Bool := startsWithB p.reverse l.reverse

end Server

namespace Server

/-! ### Substring infrastructure -/

/-- `startsWithB` decides the prefix relation. -/
theorem startsWithB_iff : ∀ (p l : List Char), startsWithB p l = true ↔ p <+: l
  | [], l => by simp [startsWithB]
  | p :: ps, [] => by simp [startsWithB]
  | p :: ps, c :: cs => by
    rw [startsWithB, Bool.and_eq_true, beq_iff_eq, startsWithB_iff ps cs,
      List.cons_prefix_cons]

/-- `hasSubB` decides the contiguous-substring (infix) relation. -/
theorem hasSubB_iff (p : List Char) : ∀ (l : List Char), hasSubB p l = true ↔ p <:+: l
  | [] => by simp [hasSubB, List.isEmpty_iff]
  | c :: cs => by
    rw [hasSubB, Bool.or_eq_true, startsWithB_iff, hasSubB_iff p cs, List.infix_cons_iff]

/-- `endsWithB` decides the suffix relation. -/
theorem endsWithB_iff (p l : List Char) : endsWithB p l = true ↔ p <:+ l := by
  rw [endsWithB, startsWithB_iff]
  exact List.reverse_prefix

/-- A computed `false` substring test refutes the infix relation. -/
theorem not_infix_of_hasSubB_eq_false {p l : List Char} (h : hasSubB p l = false) :
    ¬ p <:+: l := fun hi => by
  rw [← hasSubB_iff, h] at hi
  exact Bool.false_ne_true hi

/-- An infix of a concatenation lies in the left part, in the right part,
or spans the border: a non-empty suffix of the left part followed by a
non-empty prefix of the right part. -/
theorem infix_append_cases {α : Type} (X s t : List α) (h : X <:+: s ++ t) :
    X <:+: s ∨ X <:+: t ∨
      ∃ a b, a ++ b = X ∧ a ≠ [] ∧ b ≠ [] ∧ a <:+ s ∧ b <+: t := by
  obtain ⟨u, v, huv⟩ := h
  rw [List.append_assoc] at huv
  rcases List.append_eq_append_iff.mp huv with ⟨a', hs, hXv⟩ | ⟨c', _, ht⟩
  · rcases List.append_eq_append_iff.mp hXv with ⟨b', ha', _⟩ | ⟨d', hX, ht'⟩
    · exact Or.inl ⟨u, b', by rw [hs, ha', List.append_assoc]⟩
    · rcases eq_or_ne a' [] with rfl | hA
      · simp only [List.nil_append] at hX
        exact Or.inr (Or.inl ⟨[], v, by rw [List.nil_append, hX]; exact ht'.symm⟩)
      · rcases eq_or_ne d' [] with rfl | hD
        · simp only [List.append_nil] at hX
          exact Or.inl ⟨u, [], by rw [List.append_nil, hX]; exact hs.symm⟩
        · exact Or.inr (Or.inr ⟨a', d', hX.symm, hA, hD, ⟨u, hs.symm⟩, ⟨v, ht'.symm⟩⟩)
  · exact Or.inr (Or.inl ⟨c', v, by rw [ht, List.append_assoc]⟩)

/-- When no non-empty leading segment of `X` is a trailing segment of `L`
(checked by `endsWithB`), no border decomposition `a ++ b = X` can place
`a` as a suffix of `L`. -/
theorem no_common_edge {X L : List Char}
    (hdec : ∀ k : Fin X.length, endsWithB (X.take (k.val + 1)) L = false)
    {a b : List Char} (hab : a ++ b = X) (ha : a ≠ []) (has : a <:+ L) : False := by
  have hlen : a.length ≤ X.length := by rw [← hab, List.length_append]; omega
  have hpos : 0 < a.length := List.length_pos.mpr ha
  have htake : X.take a.length = a := by rw [← hab, List.take_left]
  have hd := hdec ⟨a.length - 1, by omega⟩
  rw [Nat.sub_add_cancel hpos, htake] at hd
  rw [← endsWithB_iff, hd] at has
  exact Bool.false_ne_true has

/-- `X` cannot occur in `T ++ (E ++ I)` when it occurs in none of the
three parts and cannot straddle either border. -/
theorem not_sub_of_parts (X T E I : List Char)
    (hT : ¬ X <:+: T) (hE : ¬ X <:+: E) (hI : ¬ X <:+: I)
    (hoT : ∀ k : Fin X.length, endsWithB (X.take (k.val + 1)) T = false)
    (hoE : ∀ k : Fin X.length, endsWithB (X.take (k.val + 1)) E = false) :
    ¬ X <:+: T ++ (E ++ I) := by
  intro h
  rcases infix_append_cases X T (E ++ I) h with h1 | h2 | ⟨a, b, hab, ha, _, has, _⟩
  · exact hT h1
  · rcases infix_append_cases X E I h2 with h3 | h4 | ⟨a, b, hab, ha, _, has, _⟩
    · exact hE h3
    · exact hI h4
    · exact no_common_edge hoE hab ha has
  · exact no_common_edge hoT hab ha has

/-- Character-level decomposition of the gherkin prompt with a truthy
additional-info string. -/
theorem get_gherkin_prompt_data (s : String) (hs : s ≠ "") :
    (get_gherkin_prompt (some s)).data =
      gherkinTemplate.data ++ (additionalInfoIntro.data ++ s.data) := by
  have htr : strTruthy (some s) = true := by simp [strTruthy, hs]
  simp [get_gherkin_prompt, htr, String.data_append]

/-- Character-level decomposition of the traditional prompt with a truthy
additional-info string. -/
theorem get_traditional_prompt_data (s : String) (hs : s ≠ "") :
    (get_traditional_prompt (some s)).data =
      traditionalTemplate.data ++ (additionalInfoIntro.data ++ s.data) := by
  have htr : strTruthy (some s) = true := by simp [strTruthy, hs]
  simp [get_traditional_prompt, htr, String.data_append]

end Server

namespace Server

/-! ### C5: prompt marker separation -/

set_option maxRecDepth 10000 in
/-- C5 counterexample: the claim quantifies over every optional free-text
addition, but the addition is appended verbatim, so an addition containing
the other template's marker makes that marker appear in the prompt: with
`additional_info = "Test Case ID"` the gherkin prompt contains
"Test Case ID", and with `additional_info = "Feature"` the traditional
prompt contains "Feature". -/
theorem marker_leak_cex :
    ("Test Case ID".data <:+: (get_gherkin_prompt (some "Test Case ID")).data) ∧
    ("Feature".data <:+: (get_traditional_prompt (some "Feature")).data) :=
  ⟨(hasSubB_iff _ _).mp (by decide), (hasSubB_iff _ _).mp (by decide)⟩

set_option maxRecDepth 10000 in
/-- C5 (amended): for every optional free-text addition, the gherkin
prompt contains the literal word "Feature" and the traditional prompt
contains "Test Case ID"; the gherkin prompt contains "Test Case ID" only
if the addition itself contains it, and the traditional prompt contains
"Feature" only if the addition itself contains it. -/
theorem prompt_marker_separation (info : Option String) :
    ("Feature".data <:+: (get_gherkin_prompt info).data) ∧
    (¬ ("Test Case ID".data <:+: (info.getD "").data) →
      ¬ ("Test Case ID".data <:+: (get_gherkin_prompt info).data)) ∧
    ("Test Case ID".data <:+: (get_traditional_prompt info).data) ∧
    (¬ ("Feature".data <:+: (info.getD "").data) →
      ¬ ("Feature".data <:+: (get_traditional_prompt info).data)) := by
  have hFg : "Feature".data <:+: gherkinTemplate.data := (hasSubB_iff _ _).mp (by decide)
  have hTt : "Test Case ID".data <:+: traditionalTemplate.data :=
    (hasSubB_iff _ _).mp (by decide)
  have hTg : ¬ "Test Case ID".data <:+: gherkinTemplate.data :=
    not_infix_of_hasSubB_eq_false (by decide)
  have hFt : ¬ "Feature".data <:+: traditionalTemplate.data :=
    not_infix_of_hasSubB_eq_false (by decide)
  have hTE : ¬ "Test Case ID".data <:+: additionalInfoIntro.data :=
    not_infix_of_hasSubB_eq_false (by decide)
  have hFE : ¬ "Feature".data <:+: additionalInfoIntro.data :=
    not_infix_of_hasSubB_eq_false (by decide)
  have hoTg : ∀ k : Fin ("Test Case ID".data.length),
      endsWithB ("Test Case ID".data.take (k.val + 1)) gherkinTemplate.data = false := by
    decide
  have hoTE : ∀ k : Fin ("Test Case ID".data.length),
      endsWithB ("Test Case ID".data.take (k.val + 1)) additionalInfoIntro.data = false := by
    decide
  have hoFt : ∀ k : Fin ("Feature".data.length),
      endsWithB ("Feature".data.take (k.val + 1)) traditionalTemplate.data = false := by
    decide
  have hoFE : ∀ k : Fin ("Feature".data.length),
      endsWithB ("Feature".data.take (k.val + 1)) additionalInfoIntro.data = false := by
    decide
  rcases info with _ | s
  · exact ⟨hFg, fun _ h => hTg h, hTt, fun _ h => hFt h⟩
  · rcases eq_or_ne s "" with rfl | hs
    · exact ⟨hFg, fun _ h => hTg h, hTt, fun _ h => hFt h⟩
    · have hg := get_gherkin_prompt_data s hs
      have ht := get_traditional_prompt_data s hs
      refine ⟨?_, ?_, ?_, ?_⟩
      · rw [hg]
        exact hFg.trans ⟨[], additionalInfoIntro.data ++ s.data, rfl⟩
      · intro hI hbad
        rw [hg] at hbad
        exact not_sub_of_parts _ _ _ _ hTg hTE (by simpa using hI) hoTg hoTE hbad
      · rw [ht]
        exact hTt.trans ⟨[], additionalInfoIntro.data ++ s.data, rfl⟩
      · intro hI hbad
        rw [ht] at hbad
        exact not_sub_of_parts _ _ _ _ hFt hFE (by simpa using hI) hoFt hoFE hbad

/-- C5 witness: a concrete addition free of both markers keeps the
markers separated in both prompts. -/
theorem prompt_marker_separation_witness :
    (¬ ("Test Case ID".data <:+: (get_gherkin_prompt (some "focus on login")).data)) ∧
    (¬ ("Feature".data <:+: (get_traditional_prompt (some "focus on login")).data)) :=
  ⟨(prompt_marker_separation (some "focus on login")).2.1
      (not_infix_of_hasSubB_eq_false (by decide)),
   (prompt_marker_separation (some "focus on login")).2.2.2
      (not_infix_of_hasSubB_eq_false (by decide))⟩

end Server

namespace Server

/-! ### C7, C9: additional-info handling -/

/-- C7: for every mode and non-empty additional-info string X, the
constructed prompt is exactly the template followed by the fixed
"Additional information about the test requirements: " intro followed by
X verbatim — no sanitization or truncation — so the prompt ends with a
suffix containing exactly X. -/
theorem additional_info_appended_verbatim (mode : LanguageMode) (X : String) (h : X ≠ "") :
    promptContent mode (some X) = promptTemplate mode ++ (additionalInfoIntro ++ X) ∧
    X.data <:+ (promptContent mode (some X)).data := by
  have htr : strTruthy (some X) = true := by simp [strTruthy, h]
  have heq : promptContent mode (some X) = promptTemplate mode ++ (additionalInfoIntro ++ X) := by
    cases mode <;>
      simp [promptContent, promptTemplate, get_gherkin_prompt, get_traditional_prompt, htr]
  refine ⟨heq, ⟨(promptTemplate mode ++ additionalInfoIntro).data, ?_⟩⟩
  rw [heq]
  simp [String.data_append, List.append_assoc]

/-- C7 witness at mode gherkin, X = "verify logout". -/
theorem additional_info_appended_verbatim_witness :
    promptContent LanguageMode.gherkin (some "verify logout") =
      promptTemplate LanguageMode.gherkin ++ (additionalInfoIntro ++ "verify logout") ∧
    "verify logout".data <:+ (promptContent LanguageMode.gherkin (some "verify logout")).data :=
  additional_info_appended_verbatim LanguageMode.gherkin "verify logout" (by decide)

/-- C9: the empty additional-info string is falsy in Python, so both
constructors return the bare template — the same result as an absent
additional_info — with no "Additional information" suffix. -/
theorem empty_additional_info_no_suffix :
    get_gherkin_prompt (some "") = gherkinTemplate ∧
    get_traditional_prompt (some "") = traditionalTemplate ∧
    get_gherkin_prompt (some "") = get_gherkin_prompt none ∧
    get_traditional_prompt (some "") = get_traditional_prompt none :=
  ⟨rfl, rfl, rfl, rfl⟩

/-! ### C8: empty image list -/

/-- C8: with zero image files the handler fails immediately with
HTTP 400 "At least one image is required"; the error branch carries no
`StreamingResponse`, so the generator performing the upstream call is
never constructed. -/
theorem empty_images_rejected_400 (mode : LanguageMode) (info : Option String) :
    create_test_caases [] mode info =
      Except.error ⟨400, "At least one image is required"⟩ :=
  rfl

/-! ### C1: Excel proxy status handling -/

/-- C1 (code bug): when the Excel upstream answers a non-200 status such
as 404, the inner `HTTPException(status_code=404, detail="Failed to
generate Excel")` raised inside the `try` block is itself caught by the
`except Exception` handler, so the client receives 500 with detail
"Failed to generate Excel file" — not the upstream status 404 that the
inner raise (and the spec) intended to pass through. -/
theorem excel_proxy_hides_upstream_status :
    generate_excel_proxy (Except.ok ⟨404, []⟩) =
      Except.error ⟨500, "Failed to generate Excel file"⟩ ∧
    excelTryBlock (Except.ok ⟨404, []⟩) =
      Except.error (PyError.httpExc 404 "Failed to generate Excel") :=
  ⟨rfl, rfl⟩

end Server

namespace Server

/-! ### C10, C4: extension and MIME inference -/

/-- A dot-free character list is returned whole by `splitOnDot`. -/
theorem splitOnDot_no_dot : ∀ (cs : List Char), '.' ∉ cs → splitOnDot cs = [cs]
  | [], _ => rfl
  | c :: cs, h => by
    have hc : ¬ (c = '.') := by
      intro hc
      exact h (by rw [hc]; exact List.mem_cons_self _ _)
    rw [splitOnDot, if_neg hc,
      splitOnDot_no_dot cs (fun hm => h (List.mem_cons_of_mem c hm))]

/-- C10 counterexample: the dot-free filename "JPG" lowercases to "jpg",
so the MIME classification is normalized to "image/jpeg", not the
"image/<lowercased filename>" = "image/jpg" the claim states. -/
theorem dotless_jpg_mime_cex :
    ( '.' ∉ "JPG".data) ∧
    mimeType "JPG" = "image/jpeg" ∧
    "image/jpeg" ≠ "image/" ++ String.mk (lowerChars "JPG".data) :=
  ⟨by decide, rfl, by decide⟩

/-- C10 (amended): for a dot-free filename, extension inference does not
fail: the inferred extension is the whole filename lowercased, the
descriptor data URL is `data:image/<lowercased filename>;base64,...`,
ingestion of a readable file succeeds, and the MIME classification is
`image/<lowercased filename>` — except that a filename lowercasing to
exactly "jpg" is normalized to "image/jpeg". -/
theorem dotless_filename_ext_inference (name : String) (b64 : String) (h : '.' ∉ name.data) :
    fileExt name = String.mk (lowerChars name.data) ∧
    imageDataUrl name b64 =
      "data:image/" ++ String.mk (lowerChars name.data) ++ ";base64," ++ b64 ∧
    mimeType name = (if String.mk (lowerChars name.data) = "jpg" then "image/jpeg"
      else "image/" ++ String.mk (lowerChars name.data)) ∧
    ∀ bs, encodeImages [⟨name, Except.ok bs⟩] =
      Except.ok [ContentPart.image_url (imageDataUrl name (b64encode bs))] := by
  have hext : fileExt name = String.mk (lowerChars name.data) := by
    rw [fileExt, splitOnDot_no_dot name.data h]
    rfl
  refine ⟨hext, ?_, ?_, ?_⟩
  · rw [imageDataUrl, hext]
  · simp only [mimeType, hext]
  · intro bs
    simp [encodeImages, encode_image_to_base64, Except.map]

/-- C10 witness at the dot-free filename "readme". -/
theorem dotless_filename_ext_inference_witness :
    fileExt "readme" = String.mk (lowerChars "readme".data) ∧
    imageDataUrl "readme" "QUJD" =
      "data:image/" ++ String.mk (lowerChars "readme".data) ++ ";base64," ++ "QUJD" ∧
    mimeType "readme" = (if String.mk (lowerChars "readme".data) = "jpg" then "image/jpeg"
      else "image/" ++ String.mk (lowerChars "readme".data)) ∧
    ∀ bs, encodeImages [⟨"readme", Except.ok bs⟩] =
      Except.ok [ContentPart.image_url (imageDataUrl "readme" (b64encode bs))] :=
  dotless_filename_ext_inference "readme" "QUJD" (by decide)

/-- C4: a filename whose inferred extension is "jpg" yields a descriptor
data URL that starts with "data:image/jpg;base64," — the raw extension —
while the separately computed MIME classification is normalized to
"image/jpeg"; for a readable file the descriptor produced by the encoding
loop embeds exactly that URL. -/
theorem jpg_descriptor_url_and_mime (name : String) (b64 : String)
    (h : fileExt name = "jpg") :
    "data:image/jpg;base64,".data <+: (imageDataUrl name b64).data ∧
    mimeType name = "image/jpeg" ∧
    ∀ bs, encodeImages [⟨name, Except.ok bs⟩] =
      Except.ok [ContentPart.image_url (imageDataUrl name (b64encode bs))] := by
  refine ⟨?_, ?_, ?_⟩
  · rw [imageDataUrl, h]
    refine ⟨b64.data, ?_⟩
    rw [show ("data:image/" ++ "jpg" ++ ";base64," : String) = "data:image/jpg;base64," from rfl]
    exact (String.data_append _ _).symm
  · simp [mimeType, h]
  · intro bs
    simp [encodeImages, encode_image_to_base64, Except.map]

/-- C4 witness at the filename "photo.jpg". -/
theorem jpg_descriptor_url_and_mime_witness :
    "data:image/jpg;base64,".data <+: (imageDataUrl "photo.jpg" "QUJD").data ∧
    mimeType "photo.jpg" = "image/jpeg" ∧
    ∀ bs, encodeImages [⟨"photo.jpg", Except.ok bs⟩] =
      Except.ok [ContentPart.image_url (imageDataUrl "photo.jpg" (b64encode bs))] :=
  jpg_descriptor_url_and_mime "photo.jpg" "QUJD" (by decide)

end Server

namespace Server

/-! ### C3: first read failure aborts the batch -/

/-- Read errors abort the encoding loop at the first failing file, with
the 400 error carrying that file's exception message. -/
theorem encodeImages_first_error (bad : UploadFile) (post : List UploadFile)
    (msg : String) (hbad : bad.readResult = Except.error msg) :
    ∀ pre : List UploadFile, (∀ f ∈ pre, ∃ bs, f.readResult = Except.ok bs) →
      encodeImages (pre ++ bad :: post) =
        Except.error ⟨400, "Error processing image: " ++ msg⟩ := by
  intro pre
  induction pre with
  | nil =>
    intro _
    simp [encodeImages, encode_image_to_base64, hbad, Except.map]
  | cons f fs ih =>
    intro h
    obtain ⟨bs, hbs⟩ := h f (List.mem_cons_self f fs)
    simp [encodeImages, encode_image_to_base64, hbs, Except.map,
      ih (fun g hg => h g (List.mem_cons_of_mem f hg))]

/-- C3 counterexample: for a file named "screen.png" whose read raises
"boom", the client-visible detail is "Error processing image: boom" — the
exception's message — which does not contain the failing file's name
(the name is only written to the server log). -/
theorem encode_error_detail_lacks_filename_cex :
    encodeImages [⟨"screen.png", Except.error "boom"⟩] =
      Except.error ⟨400, "Error processing image: boom"⟩ ∧
    ¬ ("screen.png".data <:+: "Error processing image: boom".data) :=
  ⟨rfl, not_infix_of_hasSubB_eq_false (by decide)⟩

/-- C3 (amended): when reading some image fails, processing stops at that
first failing image — the result is the same whatever files follow and
whatever the upstream would answer, so no later image is encoded and no
upstream call is made — and the failure surfaces as HTTP 400 whose detail
is "Error processing image: <exception message>" (the failing file's name
appears only in the server log, not in the response detail). -/
theorem process_request_stops_at_first_bad_image (pre : List UploadFile)
    (bad : UploadFile) (post : List UploadFile) (msg : String)
    (mode : LanguageMode) (info : Option String)
    (upstream : List Message → UpstreamResult)
    (hpre : ∀ f ∈ pre, ∃ bs, f.readResult = Except.ok bs)
    (hbad : bad.readResult = Except.error msg) :
    process_request (pre ++ bad :: post) mode info upstream =
      Except.error ⟨400, "Error processing image: " ++ msg⟩ := by
  simp [process_request, outgoingMessages,
    encodeImages_first_error bad post msg hbad pre hpre]

/-- C3 witness: one good file, then a failing one, then a trailing file
that is never read; the upstream is irrelevant. -/
theorem process_request_stops_at_first_bad_image_witness :
    process_request
      [⟨"a.png", Except.ok [1, 2]⟩, ⟨"b.png", Except.error "disk error"⟩,
        ⟨"c.png", Except.error "never read"⟩]
      LanguageMode.gherkin none (fun _ => UpstreamResult.mk [some "hi"] none) =
      Except.error ⟨400, "Error processing image: disk error"⟩ :=
  process_request_stops_at_first_bad_image [⟨"a.png", Except.ok [1, 2]⟩]
    ⟨"b.png", Except.error "disk error"⟩ [⟨"c.png", Except.error "never read"⟩]
    "disk error" LanguageMode.gherkin none (fun _ => UpstreamResult.mk [some "hi"] none)
    (by
      intro f hf
      simp only [List.mem_singleton] at hf
      subst hf
      exact ⟨[1, 2], rfl⟩)
    rfl

end Server

namespace Server

/-! ### C6: outgoing message structure -/

/-- Under read success, the encoding loop produces exactly the descriptor
of each file, in input order. -/
theorem encodeImages_eq_map : ∀ (images : List UploadFile),
    (∀ f ∈ images, ∃ bs, f.readResult = Except.ok bs) →
    encodeImages images = Except.ok (images.map descriptorOf)
  | [], _ => rfl
  | img :: rest, h => by
    obtain ⟨bs, hbs⟩ := h img (List.mem_cons_self img rest)
    have hr := encodeImages_eq_map rest (fun f hf => h f (List.mem_cons_of_mem img hf))
    simp [encodeImages, encode_image_to_base64, hbs, hr, descriptorOf, okBytes, Except.map]

/-- The assembled content list is always the text part followed by the
image parts (extending by the empty descriptor list is a no-op). -/
theorem buildMessages_content (p : String) (l : List ContentPart) :
    buildMessages p l = [⟨"user", ContentPart.text p :: l⟩] := by
  cases l <;> rfl

/-- C6: with N readable images, the outgoing request is exactly one
user-role message whose content is one text part (the selected prompt)
followed by the N image descriptors in input order. -/
theorem outgoing_message_structure (images : List UploadFile) (mode : LanguageMode)
    (info : Option String) (h : ∀ f ∈ images, ∃ bs, f.readResult = Except.ok bs) :
    outgoingMessages images mode info =
      Except.ok
        [⟨"user", ContentPart.text (promptContent mode info) :: images.map descriptorOf⟩] ∧
    (images.map descriptorOf).length = images.length := by
  refine ⟨?_, by simp⟩
  simp [outgoingMessages, encodeImages_eq_map images h, buildMessages_content]

/-- C6 witness: two concrete images produce one user message with the
text part and the two descriptors in order. -/
theorem outgoing_message_structure_witness :
    outgoingMessages [⟨"a.png", Except.ok [0]⟩, ⟨"b.jpg", Except.ok [1]⟩]
        LanguageMode.traditional none =
      Except.ok
        [⟨"user", ContentPart.text (promptContent LanguageMode.traditional none) ::
          [UploadFile.mk "a.png" (Except.ok [0]),
            UploadFile.mk "b.jpg" (Except.ok [1])].map descriptorOf⟩] ∧
    ([UploadFile.mk "a.png" (Except.ok [0]),
      UploadFile.mk "b.jpg" (Except.ok [1])].map descriptorOf).length =
      [UploadFile.mk "a.png" (Except.ok [0]),
        UploadFile.mk "b.jpg" (Except.ok [1])].length :=
  outgoing_message_structure
    [⟨"a.png", Except.ok [0]⟩, ⟨"b.jpg", Except.ok [1]⟩]
    LanguageMode.traditional none
    (by
      intro f hf
      simp only [List.mem_cons, List.not_mem_nil, or_false] at hf
      rcases hf with rfl | rfl
      · exact ⟨[0], rfl⟩
      · exact ⟨[1], rfl⟩)

end Server

namespace Server

/-! ### C2: terminal frame discipline -/

/-- Every frame the chunk loop emits is the data frame of some non-empty
chunk content. -/
theorem mem_streamChunkFrames {f : String} {chunks : List (Option String)}
    (h : f ∈ streamChunkFrames chunks) :
    ∃ s, some s ∈ chunks ∧ s ≠ "" ∧ f = "data: " ++ s ++ "\n\n" := by
  obtain ⟨c, hc, hf⟩ := List.mem_filterMap.mp h
  cases c with
  | none => simp [chunkFrame] at hf
  | some s =>
    by_cases hs : s = ""
    · simp [chunkFrame, hs] at hf
    · rw [chunkFrame, if_neg hs] at hf
      exact ⟨s, hc, hs, (Option.some_inj.mp hf).symm⟩

/-- C2: whenever the generation stream runs — upstream success or an
exception raised at any point of the call or iteration — the emitted
frame sequence is a body followed by exactly one terminal
`data: [DONE]\n\n` frame with nothing after it; the body consists of the
data frames of the upstream's non-empty chunk contents, plus one in-band
error frame when an exception occurred. -/
theorem process_request_stream_terminal (images : List UploadFile)
    (mode : LanguageMode) (info : Option String)
    (upstream : List Message → UpstreamResult) (frames : List String)
    (h : process_request images mode info upstream = Except.ok frames) :
    ∃ body msgs, outgoingMessages images mode info = Except.ok msgs ∧
      frames = body ++ ["data: [DONE]\n\n"] ∧
      ∀ f ∈ body,
        (∃ s, some s ∈ (upstream msgs).chunks ∧ s ≠ "" ∧
          f = "data: " ++ s ++ "\n\n") ∨
        (∃ e, (upstream msgs).err = some e ∧
          f = "data: Error: " ++ e ++ "\n\n") := by
  cases hm : outgoingMessages images mode info with
  | error e =>
    rw [process_request, hm] at h
    exact absurd h (by simp)
  | ok msgs =>
    have h' : (match (upstream msgs).err with
        | none =>
            Except.ok (streamChunkFrames (upstream msgs).chunks ++ ["data: [DONE]\n\n"])
        | some e =>
            Except.ok (streamChunkFrames (upstream msgs).chunks ++
              ["data: Error: " ++ e ++ "\n\n", "data: [DONE]\n\n"])) =
        (Except.ok frames : Except HTTPException (List String)) := by
      rw [process_request, hm] at h
      exact h
    cases herr : (upstream msgs).err with
    | none =>
      rw [herr] at h'
      have hfr : frames = streamChunkFrames (upstream msgs).chunks ++ ["data: [DONE]\n\n"] := by
        injection h' with h''
        exact h''.symm
      refine ⟨streamChunkFrames (upstream msgs).chunks, msgs, rfl, hfr, ?_⟩
      intro f hf
      exact Or.inl (mem_streamChunkFrames hf)
    | some e =>
      rw [herr] at h'
      have hfr : frames = streamChunkFrames (upstream msgs).chunks ++
          ["data: Error: " ++ e ++ "\n\n", "data: [DONE]\n\n"] := by
        injection h' with h''
        exact h''.symm
      refine ⟨streamChunkFrames (upstream msgs).chunks ++ ["data: Error: " ++ e ++ "\n\n"],
        msgs, rfl, ?_, ?_⟩
      · rw [hfr, List.append_assoc]
        simp
      · intro f hf
        rcases List.mem_append.mp hf with hf1 | hf2
        · exact Or.inl (mem_streamChunkFrames hf1)
        · rw [List.mem_singleton] at hf2
          exact Or.inr ⟨e, herr, hf2⟩

/-- C2 witness: a concrete successful run with one readable image and one
non-empty chunk: the data frame, then the single terminal frame. -/
theorem process_request_stream_terminal_witness :
    ∃ body msgs,
      outgoingMessages [⟨"a.png", Except.ok []⟩] LanguageMode.gherkin none =
        Except.ok msgs ∧
      (["data: hi\n\n", "data: [DONE]\n\n"] : List String) =
        body ++ ["data: [DONE]\n\n"] ∧
      ∀ f ∈ body,
        (∃ s, some s ∈ (UpstreamResult.mk [some "hi"] none).chunks ∧ s ≠ "" ∧
          f = "data: " ++ s ++ "\n\n") ∨
        (∃ e, (UpstreamResult.mk [some "hi"] none).err = some e ∧
          f = "data: Error: " ++ e ++ "\n\n") :=
  process_request_stream_terminal [⟨"a.png", Except.ok []⟩] LanguageMode.gherkin none
    (fun _ => UpstreamResult.mk [some "hi"] none)
    ["data: hi\n\n", "data: [DONE]\n\n"] rfl

end Server
